import Mathlib

/-!
Shallow embedding of the `urg-rust` client library (`src/lib.rs`) and proofs
about its protocol engine.

Modelling conventions:
* Wire bytes are `Nat` values below 256; a line as returned by
  `BufRead::read_until(b'\n')` is a `List Nat` that includes the trailing
  newline byte (value 10).  A whole readable input stream is a
  `List (List Nat)`: each `recv_data` call pops one line; an exhausted
  stream yields a 0-byte read, exactly like `read_until` at end-of-stream.
* Rust machine integers are modelled as `Nat` with explicit wraparound
  (`% 2^8`, `% 2^32`) where the source's arithmetic can wrap.  The `u8`
  subtraction `byte - 0x30` therefore becomes `(byte + 208) % 256`
  (adding `256 - 0x30`), and the mask `& 0b00111111` becomes `% 64`.
* Fallible paths are represented by `Outcome`: `ok` for `Ok`, `err` for a
  `bail!`-produced `anyhow` error (the error constructors mirror the
  distinct `bail!` sites), and `panic` for an out-of-bounds slice or an
  arithmetic underflow that aborts the thread rather than returning.
-/

namespace UrgRust

/-- One line of input, as returned by `read_until` (newline included). -/
abbrev Line := List Nat

/-- The readable side of the connection: the sequence of lines the device
sends.  An empty list means the stream is at end-of-stream. -/
abbrev Input := List Line

/-- Structured stand-ins for the distinct `bail!` sites of `src/lib.rs`. -/
inductive UrgError where
  /-- `"send cmd: {} failed. recv {} != {}"` — echoed line differs from the sent command. -/
  | echoMismatch (sent received : Line)
  /-- `"send cmd: {} failed, status error {} != {}"` — status line differs from the expected status. -/
  | statusMismatch (sent expected received : Line)
  /-- `"get_distance failed. recv wrong timestamp data {:?}"` — timestamp line is not 6 bytes. -/
  | wrongTimestamp (buffer : Line)
  /-- `"can not convert to BString. recv bytes len:{n}"` — line shorter than 2 bytes. -/
  | bstringLen (n : Nat)
  deriving DecidableEq

/-- Result of running a piece of the client against an input stream. -/
inductive Outcome (α : Type) where
  /-- The operation returned `Ok`. -/
  | ok (val : α)
  /-- The operation returned an `anyhow` error (a `bail!` site). -/
  | err (e : UrgError)
  /-- The thread aborted: a slice index underflowed (`n - 1` / `n - 2` on a
  `usize` that is too small) and the resulting range check failed. -/
  | panic
  deriving DecidableEq

/-- Whether an outcome is a success. -/
def Outcome.isOk {α : Type} : Outcome α → Bool
  | .ok _ => true
  | _ => false

/-- Whether an outcome is the `EchoMismatch` error of `check_send_cmd_response`. -/
def Outcome.isEchoMismatch {α : Type} : Outcome α → Bool
  | .err (.echoMismatch _ _) => true
  | _ => false

/-- Whether an outcome is an `anyhow` error value (as opposed to `ok` or a panic). -/
def Outcome.isErr {α : Type} : Outcome α → Bool
  | .err _ => true
  | _ => false

/-- `Urg::decode`: 6-bit big-endian accumulation over the raw bytes.
Source (`src/lib.rs:426-433`):
`res <<= 6; res += ((byte - 0x30) & 0b00111111) as u32;` per byte, on `u32`.
The `u8` subtraction wraps (`(byte + 256 - 0x30) % 256`), the mask
`& 0b00111111` is `% 64`, and the `u32` shift discards high bits
(`* 64 % 2^32`); the following addition cannot overflow because the shifted
value is a multiple of 64 below `2^32` and the summand is below 64. -/
def decode (raw : List Nat) : Nat :=
  raw.foldl (fun res byte => res * 64 % 2 ^ 32 + (byte + 208) % 256 % 64) 0

/-- Decimal digits of `n` as ASCII bytes, most significant first (the digit
production underlying Rust's `{}` formatting of an unsigned integer).
Structured with explicit fuel so that it computes by kernel reduction;
`n + 1` units of fuel always suffice since `n / 10 < n` for `n ≥ 10`. -/
def decDigitsAux : Nat → Nat → List Nat
  | 0, _ => []
  | fuel + 1, n =>
    if n < 10 then [48 + n] else decDigitsAux fuel (n / 10) ++ [48 + n % 10]

/-- ASCII decimal digits of `n`, most significant first. -/
def decDigits (n : Nat) : List Nat :=
  decDigitsAux (n + 1) n

/-- Rust's `{:0>w}` formatting of an unsigned integer: the decimal digits,
left-padded with ASCII `'0'` (48) to at least `w` bytes. -/
def pad (w n : Nat) : List Nat :=
  List.replicate (w - (decDigits n).length) 48 ++ decDigits n

/-- The `GD` command string `format!("GD{:0>4}{:0>4}{:0>2}", ...)` as bytes. -/
def gdCmd (start_step end_step cluster_count : Nat) : Line :=
  [71, 68] ++ pad 4 start_step ++ pad 4 end_step ++ pad 2 cluster_count

/-- The `GE` command string `format!("GE{:0>4}{:0>4}{:0>2}", ...)` as bytes. -/
def geCmd (start_step end_step cluster_count : Nat) : Line :=
  [71, 69] ++ pad 4 start_step ++ pad 4 end_step ++ pad 2 cluster_count

/-- The `MD` command string
`format!("MD{:0>4}{:0>4}{:0>2}{:0>1}{:0>2}", ...)` as bytes; the final
argument is the trailing scan-count field.  The infinite variant's
`format!("MD{:0>4}{:0>4}{:0>2}{:0>1}00", ...)` is `mdCmd _ _ _ _ 0`, since
`pad 2 0 = [48, 48]` is exactly the literal `"00"`. -/
def mdCmd (start_step end_step cluster_count scan_skip_count n : Nat) : Line :=
  [77, 68] ++ pad 4 start_step ++ pad 4 end_step ++ pad 2 cluster_count ++
    pad 1 scan_skip_count ++ pad 2 n

/-- The `ME` command string, same shape as `mdCmd`. -/
def meCmd (start_step end_step cluster_count scan_skip_count n : Nat) : Line :=
  [77, 69] ++ pad 4 start_step ++ pad 4 end_step ++ pad 2 cluster_count ++
    pad 1 scan_skip_count ++ pad 2 n

/-- Accumulator bound for `decode`: starting below `2^32`, every step stays
below `2^32` (the shifted accumulator is a multiple of 64 below `2^32`, the
added 6-bit value is below 64). -/
theorem decode_foldl_lt (l : List Nat) :
    ∀ acc : Nat, acc < 2 ^ 32 →
      l.foldl (fun res byte => res * 64 % 2 ^ 32 + (byte + 208) % 256 % 64) acc < 2 ^ 32 := by
  induction l with
  | nil => intro acc h; simpa using h
  | cons b t ih =>
    intro acc _
    apply ih
    show acc * 64 % 2 ^ 32 + (b + 208) % 256 % 64 < 2 ^ 32
    have h1 : acc * 64 % 2 ^ 32 % 64 = 0 := by
      rw [Nat.mod_mod_of_dvd _ (by norm_num : (64 : Nat) ∣ 2 ^ 32)]
      exact Nat.mul_mod_left acc 64
    have h2 : acc * 64 % 2 ^ 32 < 2 ^ 32 := Nat.mod_lt _ (by norm_num)
    have h3 : (b + 208) % 256 % 64 < 64 := Nat.mod_lt _ (by norm_num)
    omega

/-- C4: `decode` is a pure total function over every byte list: it is defined
for every input and always returns a value below `2^32` (a `u32`), with no
failure path.  In particular a byte below `0x30` (here `0x00`) still decodes:
the wrapped `u8` subtraction composed with the 6-bit mask yields
`(0 + 208) % 256 % 64 = 16`. -/
theorem decode_total_u32 :
    (∀ raw : List Nat, decode raw < 2 ^ 32) ∧ decode [0] = 16 := by
  constructor
  · intro raw
    exact decode_foldl_lt raw 0 (by norm_num)
  · rfl

/-- `Urg::recv_data` (`src/lib.rs:460-464`): clear the buffer and
`read_until(b'\n')`.  Pops the next line of the input; an exhausted input
yields a 0-byte read (an empty buffer), like `read_until` at end-of-stream. -/
def recv_data (inp : Input) : Line × Input :=
  match inp with
  | [] => ([], [])
  | l :: rest => (l, rest)

/-- `Urg::check_send_cmd_response` (`src/lib.rs:504-529`): read the echo
line and compare `buffer[..n - 1]` with the sent command, then read the
status line and compare `buffer[..n - 2]` with the expected status.
When a read yields too few bytes the `usize` subtraction in the slice bound
underflows and the thread panics (`n = 0` for the echo line, `n ≤ 1` for the
status line); this is modelled by `Outcome.panic`. -/
def check_send_cmd_response (cmd ok_status : Line) (inp : Input) : Outcome Input :=
  let first := recv_data inp
  let buf := first.1
  let n := buf.length
  if n = 0 then .panic
  else if buf.take (n - 1) ≠ cmd then .err (.echoMismatch cmd (buf.take (n - 1)))
  else
    let second := recv_data first.2
    let buf2 := second.1
    let m := buf2.length
    if m ≤ 1 then .panic
    else if buf2.take (m - 2) ≠ ok_status then
      .err (.statusMismatch cmd ok_status (buf2.take (m - 2)))
    else .ok second.2

/-- The inner loop of `Urg::get_raw_data` (`src/lib.rs:448-457`): read lines,
stop at the first 1-byte line (`n == 1`), otherwise append `buffer[..n - 2]`
to the accumulator.  A 0-byte read makes `n - 2` underflow: panic. -/
def readBlockAux (inp : Input) (acc : List Nat) : Outcome (List Nat × Input) :=
  match inp with
  | [] => .panic
  | l :: rest =>
    let n := l.length
    if n = 1 then .ok (acc, rest)
    else if n = 0 then .panic
    else readBlockAux rest (acc ++ l.take (n - 2))

/-- `Urg::get_raw_data` (`src/lib.rs:435-458`): read the timestamp line
(exactly 6 bytes or `bail!`), decode its first 4 bytes, then gather the data
block until the 1-byte terminator line. -/
def get_raw_data (inp : Input) : Outcome ((Nat × List Nat) × Input) :=
  let first := recv_data inp
  let buf := first.1
  if buf.length ≠ 6 then .err (.wrongTimestamp buf)
  else
    let time_stamp := decode (buf.take 4)
    match readBlockAux first.2 [] with
    | .ok (raw, inp2) => .ok ((time_stamp, raw), inp2)
    | .err e => .err e
    | .panic => .panic

/-- `Urg::recv_b_string` (`src/lib.rs:466-472`): read a line; fewer than 2
bytes is a `bail!`, otherwise return `buffer[..n - 2]`. -/
def recv_b_string (inp : Input) : Outcome (Line × Input) :=
  let first := recv_data inp
  let buf := first.1
  let n := buf.length
  if n < 2 then .err (.bstringLen n)
  else .ok (buf.take (n - 2), first.2)

/-- Taking all but the last `k` elements of `l ++ t` where `t` has length `k`
leaves exactly `l`. -/
theorem take_length_append (l t : List Nat) : (l ++ t).take l.length = l := by
  induction l with
  | nil => simp
  | cons a s ih => simp [ih]

/-- Successful canonical exchange: when the device echoes exactly the sent
command (plus newline) and answers with the expected status followed by one
checksum byte and the newline, `check_send_cmd_response` succeeds and
consumes exactly those two lines. -/
theorem check_ok_canonical (cmd ok_status : Line) (c : Nat) (rest : Input) :
    check_send_cmd_response cmd ok_status
      ((cmd ++ [10]) :: (ok_status ++ [c, 10]) :: rest) = .ok rest := by
  have h1 : (cmd ++ [10]).take ((cmd ++ [10]).length - 1) = cmd := by
    have := take_length_append cmd [10]
    simpa using this
  have h2 : (ok_status ++ [c, 10]).take ((ok_status ++ [c, 10]).length - 2) = ok_status := by
    have := take_length_append ok_status [c, 10]
    simpa using this
  simp [check_send_cmd_response, recv_data, h1, h2]

/-- A successful `check_send_cmd_response` consumed exactly two lines. -/
theorem check_ok_length {cmd ok_status : Line} {inp inp2 : Input}
    (h : check_send_cmd_response cmd ok_status inp = .ok inp2) :
    inp2.length + 2 = inp.length := by
  match inp with
  | [] => simp [check_send_cmd_response, recv_data] at h
  | [l] =>
    simp only [check_send_cmd_response, recv_data] at h
    split_ifs at h <;> simp_all
  | l1 :: l2 :: rest =>
    simp only [check_send_cmd_response, recv_data] at h
    split_ifs at h <;> simp_all

/-- The block loop stops no later than the input does: on success it consumed
at least the terminator line. -/
theorem readBlockAux_ok_length {inp inp2 : Input} {acc raw : List Nat}
    (h : readBlockAux inp acc = .ok (raw, inp2)) :
    inp2.length < inp.length := by
  induction inp generalizing acc with
  | nil => simp [readBlockAux] at h
  | cons l rest ih =>
    simp only [readBlockAux] at h
    split_ifs at h with h1 h2
    · simp only [Outcome.ok.injEq, Prod.mk.injEq] at h
      simp [← h.2]
    · exact Nat.lt_trans (ih h) (by simp)

/-- A successful `get_raw_data` consumed at least two lines (timestamp and
terminator). -/
theorem get_raw_data_ok_length {inp inp2 : Input} {v : Nat × List Nat}
    (h : get_raw_data inp = .ok (v, inp2)) :
    inp2.length + 1 < inp.length := by
  match inp with
  | [] => simp [get_raw_data, recv_data, readBlockAux] at h
  | l :: rest =>
    simp only [get_raw_data, recv_data] at h
    split_ifs at h with h1
    rcases hb : readBlockAux rest [] with v2 | e2 | _ <;> rw [hb] at h
    · obtain ⟨raw2, inp3⟩ := v2
      simp only [Outcome.ok.injEq, Prod.mk.injEq] at h
      have hlt := readBlockAux_ok_length hb
      have hlen : inp3 = inp2 := h.2
      subst hlen
      simp only [List.length_cons]
      omega
    · simp at h
    · simp at h

/-- Block reading over well-formed data lines: every line of length at least
2 contributes its bytes minus the trailing two, and the first 1-byte line
terminates the block, leaving the remaining input untouched. -/
theorem readBlockAux_general (ls : Input) (c : Nat) (rest : Input) (acc : List Nat)
    (h : ∀ l ∈ ls, 2 ≤ l.length) :
    readBlockAux (ls ++ [c] :: rest) acc =
      .ok (acc ++ (ls.map (fun l => l.take (l.length - 2))).flatten, rest) := by
  induction ls generalizing acc with
  | nil => simp [readBlockAux]
  | cons l t ih =>
    have hl : 2 ≤ l.length := h l (by simp)
    have hrec := ih (acc ++ l.take (l.length - 2)) (fun x hx => h x (by simp [hx]))
    simp only [List.cons_append, readBlockAux, List.append_eq]
    rw [if_neg (by omega), if_neg (by omega), hrec]
    simp

/-- C2 (corrected): the echo line is verified on all bytes except the last
ONE — only the trailing newline is stripped before the comparison with the
sent command (`&buffer[..n - 1] != cmd.as_bytes()` in
`check_send_cmd_response`), not the last two bytes as the claim states.
Given a non-empty echo line, the exchange fails with an `EchoMismatch` at
the echo step exactly when the line minus its final byte differs from the
sent command. -/
theorem claim_C2_amended (cmd ok_status l : Line) (rest : Input)
    (h : 1 ≤ l.length) :
    (check_send_cmd_response cmd ok_status (l :: rest)).isEchoMismatch = true ↔
      l.take (l.length - 1) ≠ cmd := by
  by_cases hc : l.take (l.length - 1) = cmd
  · have hfalse : (check_send_cmd_response cmd ok_status (l :: rest)).isEchoMismatch = false := by
      simp only [check_send_cmd_response, recv_data]
      rw [if_neg (by omega), if_neg (not_not_intro hc)]
      cases rest with
      | nil => rfl
      | cons l2 rest2 => split_ifs <;> rfl
    simp [hfalse, hc]
  · simp only [check_send_cmd_response, recv_data]
    rw [if_neg (by omega), if_pos hc]
    simp [Outcome.isEchoMismatch, hc]

/-- C2 counterexample: for the sent command `"VV"` and the echoed line
`"VVX\n"`, the usable content in the claim's sense (all bytes except the
last two) is exactly `"VV"`, equal to the sent command — yet the code
compares all bytes except the last one (`"VVX"`) and fails the exchange
with an `EchoMismatch`, even though the following status line matches. -/
theorem claim_C2_counterexample :
    ([86, 86, 88, 10] : Line).take (([86, 86, 88, 10] : Line).length - 2) = [86, 86] ∧
      check_send_cmd_response [86, 86] [48, 48]
        [[86, 86, 88, 10], [48, 48, 80, 10]] =
        .err (.echoMismatch [86, 86] [86, 86, 88]) := by
  exact ⟨rfl, rfl⟩

/-- C2 witness: the amended characterization applied at the echo line
`"VV\n"` for the command `"VV"` (non-empty line hypothesis discharged). -/
theorem claim_C2_witness :
    1 ≤ ([86, 86, 10] : Line).length ∧
      ((check_send_cmd_response [86, 86] [48, 48] [[86, 86, 10]]).isEchoMismatch = true ↔
        ([86, 86, 10] : Line).take (([86, 86, 10] : Line).length - 1) ≠ [86, 86]) :=
  ⟨by decide, claim_C2_amended [86, 86] [48, 48] [86, 86, 10] [] (by decide)⟩

/-- C3 (corrected): a 0-byte read at end-of-stream is NOT surfaced as a
`ConnectionClosed` error value — no such error kind exists in the code.
In `check_send_cmd_response` and in the data-block loop of `get_raw_data`
the empty buffer makes the slice bound `n - 1` / `n - 2` underflow and the
thread panics; only `recv_b_string` turns the short read into an (unnamed,
generic) `bail!` error. -/
theorem claim_C3_amended :
    (∀ cmd ok_status : Line, check_send_cmd_response cmd ok_status [] = .panic) ∧
      (∀ acc : List Nat, readBlockAux [] acc = .panic) ∧
      recv_b_string [] = .err (.bstringLen 0) := by
  refine ⟨fun cmd ok_status => rfl, fun acc => rfl, rfl⟩

/-- C3 counterexample: at end-of-stream (`recv_data` yields 0 bytes),
`check_send_cmd_response` panics — the outcome is not an error value of any
kind, contradicting the claim that the condition is surfaced as a
`ConnectionClosed` error result. -/
theorem claim_C3_counterexample :
    check_send_cmd_response [86, 86] [48, 48] [] = .panic ∧
      (check_send_cmd_response [86, 86] [48, 48] []).isErr = false := by
  exact ⟨rfl, rfl⟩

/-- C8 (corrected): the block terminator is a line of exactly ONE byte in
total — the newline alone, with zero content bytes before it (`n == 1` in
`get_raw_data`) — not a line with one content byte before the newline.  A
2-byte line (one content byte plus the newline) does not terminate the
block: it merely contributes nothing (`buffer[..n - 2]` is empty).  Block
reading stops at the first 1-byte line and returns the concatenation of
each preceding line's bytes minus its trailing two (checksum byte and
newline). -/
theorem claim_C8_amended (ls : Input) (c : Nat) (rest : Input) (acc : List Nat)
    (h : ∀ l ∈ ls, 2 ≤ l.length) :
    readBlockAux (ls ++ [c] :: rest) acc =
      .ok (acc ++ (ls.map (fun l => l.take (l.length - 2))).flatten, rest) :=
  readBlockAux_general ls c rest acc h

/-- C8 counterexample: fed the lines `"X\n"` (exactly one content byte
before the newline — the claim's terminator) followed by the bare newline
line, the block loop does NOT stop at `"X\n"`: it consumes both lines and
returns an empty block with nothing left unread, instead of stopping at the
first line and leaving the second unread. -/
theorem claim_C8_counterexample :
    readBlockAux [[88, 10], [10]] [] = .ok ([], []) ∧
      readBlockAux [[88, 10], [10]] [] ≠ .ok ([], [[10]]) := by
  exact ⟨rfl, by decide⟩

/-- C8 witness: the amended statement applied to one 4-byte data line
`"abc\n"`-shaped (`97 98 99 10`), a 1-byte terminator, and a leftover line. -/
theorem claim_C8_witness :
    (∀ l ∈ ([[97, 98, 99, 10]] : Input), 2 ≤ l.length) ∧
      readBlockAux (([[97, 98, 99, 10]] : Input) ++ [48] :: [[70, 10]]) [] =
        .ok ([] ++ ((([[97, 98, 99, 10]] : Input).map (fun l => l.take (l.length - 2))).flatten),
          [[70, 10]]) :=
  ⟨by decide, claim_C8_amended [[97, 98, 99, 10]] 48 [[70, 10]] [] (by decide)⟩

/-- `UrgPayload` (`src/lib.rs:42-47`): one scan record. -/
structure UrgPayload where
  time_stamp : Nat
  distance : List Nat
  intensity : List Nat
  deriving DecidableEq

/-- Rust's `chunks_exact(3)`: the complete 3-byte chunks of the list, any
trailing remainder of fewer than 3 bytes silently dropped. -/
def chunks3 : List Nat → List (List Nat)
  | a :: b :: c :: rest => [a, b, c] :: chunks3 rest
  | [] => []
  | [_] => []
  | [_, _] => []

/-- Rust's `chunks_exact(6)`: the complete 6-byte chunks, remainder dropped. -/
def chunks6 : List Nat → List (List Nat)
  | a :: b :: c :: d :: e :: f :: rest => [a, b, c, d, e, f] :: chunks6 rest
  | [] => []
  | [_] => []
  | [_, _] => []
  | [_, _, _] => []
  | [_, _, _, _] => []
  | [_, _, _, _, _] => []

/-- The distance-decoding loop
`for bytes in raw_data.chunks_exact(3) { distance.push(Self::decode(bytes)) }`. -/
def decodeDistances (raw : List Nat) : List Nat :=
  (chunks3 raw).map decode

/-- The distance+intensity loop over `chunks_exact(6)`:
`decode(&bytes[0..3])` and `decode(&bytes[3..6])` per chunk. -/
def decodeDistIntens (raw : List Nat) : List Nat × List Nat :=
  ((chunks6 raw).map (fun b => decode (b.take 3)),
    (chunks6 raw).map (fun b => decode ((b.drop 3).take 3)))

/-- Building the distance-only record pushed by `get_distance` and the `MD`
loops: `intensity` stays empty. -/
def mkDistancePayload (time_stamp : Nat) (raw : List Nat) : UrgPayload :=
  ⟨time_stamp, decodeDistances raw, []⟩

/-- Building the distance+intensity record pushed by `get_distance_intensity`
and the `ME` loops. -/
def mkIntensityPayload (time_stamp : Nat) (raw : List Nat) : UrgPayload :=
  ⟨time_stamp, (decodeDistIntens raw).1, (decodeDistIntens raw).2⟩

/-- The connection as seen by one operation: the lines still readable and
the trace of command lines written so far (`write_all` + `write_all(b"\n")`
+ `flush`). -/
structure World where
  input : Input
  written : List Line
  deriving DecidableEq

/-- `Urg::send_cmd` (`src/lib.rs:491-502`): write the command line, then
validate the echo/status pair with `check_send_cmd_response`. -/
def send_cmd (cmd ok_status : Line) (w : World) : Outcome World :=
  match check_send_cmd_response cmd ok_status w.input with
  | .ok inp2 => .ok ⟨inp2, w.written ++ [cmd ++ [10]]⟩
  | .err e => .err e
  | .panic => .panic

/-- `Urg::get_distance` (`src/lib.rs:195-220`): one `GD` exchange with
expected status `"00"`, then timestamp + data block, decoded in 3-byte
groups into a distance-only record. -/
def get_distance (start_step end_step cluster_count : Nat) (w : World) :
    Outcome (UrgPayload × World) :=
  match send_cmd (gdCmd start_step end_step cluster_count) [48, 48] w with
  | .ok w1 =>
    match get_raw_data w1.input with
    | .ok (v, inp2) => .ok (mkDistancePayload v.1 v.2, ⟨inp2, w1.written⟩)
    | .err e => .err e
    | .panic => .panic
  | .err e => .err e
  | .panic => .panic

/-- `Urg::get_distance_intensity` (`src/lib.rs:308-334`): one `GE` exchange
with expected status `"00"`, then timestamp + data block, decoded in 6-byte
groups into distance and intensity. -/
def get_distance_intensity (start_step end_step cluster_count : Nat) (w : World) :
    Outcome (UrgPayload × World) :=
  match send_cmd (geCmd start_step end_step cluster_count) [48, 48] w with
  | .ok w1 =>
    match get_raw_data w1.input with
    | .ok (v, inp2) => .ok (mkIntensityPayload v.1 v.2, ⟨inp2, w1.written⟩)
    | .err e => .err e
    | .panic => .panic
  | .err e => .err e
  | .panic => .panic

/-- The canonical single-scan device response to a command `cmd`: echo,
status `"00"` with a checksum byte, a timestamp line decoding to 1, one data
line carrying `payload`, and the 1-byte terminator. -/
def scanResponse (cmd : Line) (payload : List Nat) : Input :=
  [cmd ++ [10], [48, 48] ++ [80, 10], [48, 48, 48, 49] ++ [80, 10],
    payload ++ [80, 10], [10]]

/-- `send_cmd` on the canonical echo/status pair: success, two lines
consumed, the command line appended to the write trace. -/
theorem send_cmd_canonical (cmd ok_status : Line) (c : Nat) (rest : Input) (wr : List Line) :
    send_cmd cmd ok_status ⟨(cmd ++ [10]) :: (ok_status ++ [c, 10]) :: rest, wr⟩ =
      .ok ⟨rest, wr ++ [cmd ++ [10]]⟩ := by
  simp [send_cmd, check_ok_canonical]

/-- `get_raw_data` on a canonical timestamp line, one data line and the
terminator: returns the decoded timestamp and the data line's payload. -/
theorem get_raw_data_canonical (tsB : List Nat) (htsB : tsB.length = 4) (c1 : Nat)
    (payload : List Nat) (c2 : Nat) (rest : Input) :
    get_raw_data ((tsB ++ [c1, 10]) :: (payload ++ [c2, 10]) :: [10] :: rest) =
      .ok ((decode tsB, payload), rest) := by
  have hlen : (tsB ++ [c1, 10]).length = 6 := by simp [htsB]
  have hblock := readBlockAux_general [payload ++ [c2, 10]] 10 rest []
    (by intro l hl; simp at hl; simp [hl])
  have htake : (payload ++ [c2, 10]).take ((payload ++ [c2, 10]).length - 2) = payload := by
    have := take_length_append payload [c2, 10]
    simpa using this
  have htake4 : (tsB ++ [c1, 10]).take 4 = tsB := by
    have := take_length_append tsB [c1, 10]
    rwa [htsB] at this
  simp only [get_raw_data, recv_data, hlen]
  rw [if_neg (by omega), htake4]
  simp only [List.cons_append, List.nil_append] at hblock
  rw [hblock]
  simp [htake]

/-- `get_raw_data` on a canonical timestamp line immediately followed by the
terminator: an empty data block. -/
theorem get_raw_data_canonical_nodata (tsB : List Nat) (htsB : tsB.length = 4) (c1 : Nat)
    (rest : Input) :
    get_raw_data ((tsB ++ [c1, 10]) :: [10] :: rest) = .ok ((decode tsB, []), rest) := by
  have hlen : (tsB ++ [c1, 10]).length = 6 := by simp [htsB]
  have hblock := readBlockAux_general [] 10 rest [] (by intro l hl; simp at hl)
  have htake4 : (tsB ++ [c1, 10]).take 4 = tsB := by
    have := take_length_append tsB [c1, 10]
    rwa [htsB] at this
  simp only [get_raw_data, recv_data, hlen]
  rw [if_neg (by omega), htake4]
  simp only [List.nil_append] at hblock
  rw [hblock]
  simp

/-- Length of the complete-3-chunk decomposition: `⌊len / 3⌋`. -/
theorem chunks3_length : ∀ raw : List Nat, (chunks3 raw).length = raw.length / 3
  | [] => by simp [chunks3]
  | [_] => by simp [chunks3]
  | [_, _] => by simp [chunks3]
  | a :: b :: c :: rest => by
    have ih := chunks3_length rest
    simp only [chunks3, List.length_cons, ih]
    omega

/-- Length of the complete-6-chunk decomposition: `⌊len / 6⌋`. -/
theorem chunks6_length : ∀ raw : List Nat, (chunks6 raw).length = raw.length / 6
  | [] => by simp [chunks6]
  | [_] => by simp [chunks6]
  | [_, _] => by simp [chunks6]
  | [_, _, _] => by simp [chunks6]
  | [_, _, _, _] => by simp [chunks6]
  | [_, _, _, _, _] => by simp [chunks6]
  | a :: b :: c :: d :: e :: f :: rest => by
    have ih := chunks6_length rest
    simp only [chunks6, List.length_cons, ih]
    omega

/-- C1 (corrected): none of the scan-retrieval operations checks that the
data block's length is a multiple of the record width, and no
`MalformedBlock` error exists.  `chunks_exact` silently drops a trailing
remainder: the block decodes into `⌊len / 3⌋` (respectively `⌊len / 6⌋`)
records, and the operation succeeds on any block length.  The third
conjunct exhibits this end to end: `get_distance` on a device response whose
data block is an arbitrary list of bytes (in particular one whose length is
not a multiple of 3) returns a record, never an error. -/
theorem claim_C1_amended :
    (∀ raw : List Nat, (decodeDistances raw).length = raw.length / 3) ∧
      (∀ raw : List Nat, (decodeDistIntens raw).1.length = raw.length / 6 ∧
        (decodeDistIntens raw).2.length = raw.length / 6) ∧
      (∀ (s e c : Nat) (payload : List Nat) (rest : Input) (w0 : List Line),
        get_distance s e c ⟨scanResponse (gdCmd s e c) payload ++ rest, w0⟩ =
          .ok (⟨1, decodeDistances payload, []⟩, ⟨rest, w0 ++ [gdCmd s e c ++ [10]]⟩)) := by
  refine ⟨?_, ?_, ?_⟩
  · intro raw
    simp [decodeDistances, chunks3_length]
  · intro raw
    constructor <;> simp [decodeDistIntens, chunks6_length]
  · intro s e c payload rest w0
    have hsend := send_cmd_canonical (gdCmd s e c) [48, 48] 80
      (([48, 48, 48, 49] ++ [80, 10]) :: (payload ++ [80, 10]) :: [10] :: rest) w0
    have hraw := get_raw_data_canonical [48, 48, 48, 49] rfl 80 payload 80 rest
    have hdec : decode [48, 48, 48, 49] = 1 := rfl
    simp only [List.cons_append, List.nil_append] at hsend hraw
    simp only [scanResponse, List.cons_append, List.nil_append]
    simp only [get_distance, hsend, hraw, hdec, mkDistancePayload]

/-- C1 counterexample: a `GD` response whose data block is the 4 bytes
`65 66 67 68` — length 4, not a multiple of the record width 3 — does not
fail with any error: `get_distance` returns a record whose single distance
is decoded from the first complete chunk `65 66 67`, the trailing byte
silently dropped. -/
theorem claim_C1_counterexample :
    (4 : Nat) % 3 ≠ 0 ∧
      get_distance 0 10 1 ⟨scanResponse (gdCmd 0 10 1) [65, 66, 67, 68], []⟩ =
        .ok (⟨1, [70803], []⟩, ⟨[], [gdCmd 0 10 1 ++ [10]]⟩) := by
  exact ⟨by decide, rfl⟩

/-- Rust's `NonZeroU32`: the scan-count type of the public multi-scan
interface — at least 1, at most `u32::MAX`. -/
def NonZeroU32 : Type := {n : Nat // 1 ≤ n ∧ n < 2 ^ 32}

/-- The `u32` wrapping decrement performed by `remaining_scan -= 1` at the
top of the multi-scan loops (`src/lib.rs:246` and `src/lib.rs:360`): on the
entry value 0 it wraps to `2^32 - 1`.  Written as a pattern match; the
lemma `wrapDec32_eq_mod` shows it is exactly `(r + (2^32 - 1)) % 2^32` on
the `u32` range. -/
def wrapDec32 (r : Nat) : Nat :=
  match r with
  | 0 => 4294967295
  | n + 1 => n

/-- On the `u32` range, `wrapDec32` is the modular rendering of the wrapping
decrement. -/
theorem wrapDec32_eq_mod (r : Nat) (h : r < 2 ^ 32) :
    wrapDec32 r = (r + (2 ^ 32 - 1)) % 2 ^ 32 := by
  cases r with
  | zero => rfl
  | succ n => simp only [wrapDec32]; omega

/-- The `loop { ... }` of `get_distance_multi` / `get_distance_intensity_multi`
(`src/lib.rs:245-265` and `src/lib.rs:359-381`), parameterized by the command
builder (`mdCmd`/`meCmd` applied to the fixed scan parameters — the source
duplicates the loop textually in the two functions) and the record builder
(3-byte or 6-byte decoding).  Each iteration decrements the remaining count
(wrapping `u32` semantics), verifies the derived continuation command with
expected status `"99"` WITHOUT writing it, reads timestamp + data block,
pushes the record, and exits once the count has reached 0.  The returned
list is the `payload` vector in push order. -/
def mdLoop (mk : Nat → Line) (mkP : Nat → List Nat → UrgPayload) (r : Nat) (inp : Input) :
    Outcome (List UrgPayload × Input) :=
  let r2 := wrapDec32 r
  match h1 : check_send_cmd_response (mk r2) [57, 57] inp with
  | .err e => .err e
  | .panic => .panic
  | .ok inp1 =>
    match h2 : get_raw_data inp1 with
    | .err e => .err e
    | .panic => .panic
    | .ok (v, inp2) =>
      let p := mkP v.1 v.2
      if r2 = 0 then .ok ([p], inp2)
      else
        match mdLoop mk mkP r2 inp2 with
        | .ok (ps, inp3) => .ok (p :: ps, inp3)
        | .err e => .err e
        | .panic => .panic
termination_by inp.length
decreasing_by
  have a1 := check_ok_length h1
  have a2 := get_raw_data_ok_length h2
  omega

/-- Modelled from the spec's words, for comparison against the source's
`mdLoop`: the same loop with an exact (never-wrapping) decrement of the
remaining count, as described in §4.5 ("If bounded: decrement `remaining`").
Identical to `mdLoop` except that `r - 1` is mathematical truncated
subtraction instead of the `u32` wrap. -/
def mdLoopSpec (mk : Nat → Line) (mkP : Nat → List Nat → UrgPayload) (r : Nat) (inp : Input) :
    Outcome (List UrgPayload × Input) :=
  let r2 := r - 1
  match h1 : check_send_cmd_response (mk r2) [57, 57] inp with
  | .err e => .err e
  | .panic => .panic
  | .ok inp1 =>
    match h2 : get_raw_data inp1 with
    | .err e => .err e
    | .panic => .panic
    | .ok (v, inp2) =>
      let p := mkP v.1 v.2
      if r2 = 0 then .ok ([p], inp2)
      else
        match mdLoopSpec mk mkP r2 inp2 with
        | .ok (ps, inp3) => .ok (p :: ps, inp3)
        | .err e => .err e
        | .panic => .panic
termination_by inp.length
decreasing_by
  have a1 := check_ok_length h1
  have a2 := get_raw_data_ok_length h2
  omega

/-- `Urg::get_distance_multi` (`src/lib.rs:222-267`): send the `MD` request
with the full scan count and expected status `"00"`, read and discard one
line, then run the continuation loop. -/
def get_distance_multi (start_step end_step cluster_count scan_skip_count : Nat)
    (num_of_scan : NonZeroU32) (w : World) : Outcome (List UrgPayload × World) :=
  let cmd := mdCmd start_step end_step cluster_count scan_skip_count num_of_scan.val
  match send_cmd cmd [48, 48] w with
  | .ok w1 =>
    let first := recv_data w1.input
    match mdLoop (mdCmd start_step end_step cluster_count scan_skip_count)
        mkDistancePayload num_of_scan.val first.2 with
    | .ok (ps, inp2) => .ok (ps, ⟨inp2, w1.written⟩)
    | .err e => .err e
    | .panic => .panic
  | .err e => .err e
  | .panic => .panic

/-- `Urg::get_distance_intensity_multi` (`src/lib.rs:336-383`): as
`get_distance_multi` with `ME` and 6-byte record decoding. -/
def get_distance_intensity_multi (start_step end_step cluster_count scan_skip_count : Nat)
    (num_of_scan : NonZeroU32) (w : World) : Outcome (List UrgPayload × World) :=
  let cmd := meCmd start_step end_step cluster_count scan_skip_count num_of_scan.val
  match send_cmd cmd [48, 48] w with
  | .ok w1 =>
    let first := recv_data w1.input
    match mdLoop (meCmd start_step end_step cluster_count scan_skip_count)
        mkIntensityPayload num_of_scan.val first.2 with
    | .ok (ps, inp2) => .ok (ps, ⟨inp2, w1.written⟩)
    | .err e => .err e
    | .panic => .panic
  | .err e => .err e
  | .panic => .panic

/-- The `loop { ... }` of the infinite-scan operations
(`src/lib.rs:290-304` and `src/lib.rs:406-422`): each iteration verifies
the UNCHANGED original request command with expected status `"99"` without
writing anything, reads timestamp + data block, builds the record, hands it
to the callback and stops when the callback returns `true`.  The source
returns `Ok(())`; the record list returned here is the ghost trace of the
records delivered to the callback, in delivery order. -/
def infLoop (cmd : Line) (mkP : Nat → List Nat → UrgPayload) (cb : UrgPayload → Bool)
    (inp : Input) : Outcome (List UrgPayload × Input) :=
  match h1 : check_send_cmd_response cmd [57, 57] inp with
  | .err e => .err e
  | .panic => .panic
  | .ok inp1 =>
    match h2 : get_raw_data inp1 with
    | .err e => .err e
    | .panic => .panic
    | .ok (v, inp2) =>
      let p := mkP v.1 v.2
      if cb p then .ok ([p], inp2)
      else
        match infLoop cmd mkP cb inp2 with
        | .ok (ps, inp3) => .ok (p :: ps, inp3)
        | .err e => .err e
        | .panic => .panic
termination_by inp.length
decreasing_by
  have a1 := check_ok_length h1
  have a2 := get_raw_data_ok_length h2
  omega

/-- `Urg::get_distance_infinite` (`src/lib.rs:269-306`): send the `MD`
request with the literal count field `"00"` and expected status `"00"`,
read and discard one line, then run the callback loop. -/
def get_distance_infinite (start_step end_step cluster_count scan_skip_count : Nat)
    (callback_break : UrgPayload → Bool) (w : World) : Outcome (List UrgPayload × World) :=
  let cmd := mdCmd start_step end_step cluster_count scan_skip_count 0
  match send_cmd cmd [48, 48] w with
  | .ok w1 =>
    let first := recv_data w1.input
    match infLoop cmd mkDistancePayload callback_break first.2 with
    | .ok (ps, inp2) => .ok (ps, ⟨inp2, w1.written⟩)
    | .err e => .err e
    | .panic => .panic
  | .err e => .err e
  | .panic => .panic

/-- `Urg::get_distance_intensity_infinite` (`src/lib.rs:385-424`): as
`get_distance_infinite` with `ME` and 6-byte record decoding. -/
def get_distance_intensity_infinite (start_step end_step cluster_count scan_skip_count : Nat)
    (callback_break : UrgPayload → Bool) (w : World) : Outcome (List UrgPayload × World) :=
  let cmd := meCmd start_step end_step cluster_count scan_skip_count 0
  match send_cmd cmd [48, 48] w with
  | .ok w1 =>
    let first := recv_data w1.input
    match infLoop cmd mkIntensityPayload callback_break first.2 with
    | .ok (ps, inp2) => .ok (ps, ⟨inp2, w1.written⟩)
    | .err e => .err e
    | .panic => .panic
  | .err e => .err e
  | .panic => .panic

/-- The session fields of `struct Urg` (`src/lib.rs:49-55`) other than the
TCP stream itself: the capture flag and the address the session was opened
with (`IpAddr` rendered as a plain number — its value is never inspected). -/
structure UrgSession where
  is_capturing : Bool
  ip_address : Nat
  port : Nat
  deriving DecidableEq

/-- `Urg::start_capture` (`src/lib.rs:152-164`): one `BM` exchange with
status `"00"`, one discarded line, and only then `self.is_capturing = true`.
On any failure the early `?` return leaves the session fields untouched. -/
def start_capture (u : UrgSession) (w : World) : Outcome World × UrgSession :=
  match send_cmd [66, 77] [48, 48] w with
  | .ok w1 =>
    let first := recv_data w1.input
    (.ok ⟨first.2, w1.written⟩, { u with is_capturing := true })
  | .err e => (.err e, u)
  | .panic => (.panic, u)

/-- `Urg::stop_capture` (`src/lib.rs:166-178`): one `QT` exchange with
status `"00"`, one discarded line, and only then `self.is_capturing = false`. -/
def stop_capture (u : UrgSession) (w : World) : Outcome World × UrgSession :=
  match send_cmd [81, 84] [48, 48] w with
  | .ok w1 =>
    let first := recv_data w1.input
    (.ok ⟨first.2, w1.written⟩, { u with is_capturing := false })
  | .err e => (.err e, u)
  | .panic => (.panic, u)

/-- C10: session-field discipline.  `ip_address` and `port` are never
modified by any operation after `open` (every other operation borrows the
session immutably and is modelled without session state; `start_capture`
and `stop_capture`, the only `&mut self` methods, copy them unchanged), and
`is_capturing` is set to `true` by `start_capture` and to `false` by
`stop_capture` only when the operation's full exchange succeeded; on an
error or panic in any step the early return leaves the session exactly as
it was. -/
theorem claim_C10_session_fields :
    ∀ (u : UrgSession) (w : World),
      ((start_capture u w).2 =
        if ((start_capture u w).1.isOk : Bool) then { u with is_capturing := true } else u) ∧
      ((stop_capture u w).2 =
        if ((stop_capture u w).1.isOk : Bool) then { u with is_capturing := false } else u) ∧
      (start_capture u w).2.ip_address = u.ip_address ∧
      (start_capture u w).2.port = u.port ∧
      (stop_capture u w).2.ip_address = u.ip_address ∧
      (stop_capture u w).2.port = u.port := by
  intro u w
  cases h1 : send_cmd [66, 77] [48, 48] w <;> cases h2 : send_cmd [81, 84] [48, 48] w <;>
    simp [start_capture, stop_capture, h1, h2, Outcome.isOk]

/-- One continuation group of the canonical bounded-scan device stream: the
echo of the derived command carrying the count field `r`, the status line
`"99"`, a timestamp line decoding to 1, one data line, the terminator. -/
def contGroup (mk : Nat → Line) (dataPayload : List Nat) (r : Nat) : Input :=
  [mk r ++ [10], [57, 57] ++ [80, 10], [48, 48, 48, 49] ++ [80, 10],
    dataPayload ++ [80, 10], [10]]

/-- The canonical continuation stream for `m` remaining scans: groups whose
count fields count down `m - 1, m - 2, ..., 0` in read order, each with
status `"99"`. -/
def contStream (mk : Nat → Line) (dataPayload : List Nat) : Nat → Input
  | 0 => []
  | r + 1 => contGroup mk dataPayload r ++ contStream mk dataPayload r

/-- One-step unfolding of `mdLoop` along a successful continuation exchange
and block read. -/
theorem mdLoop_step_ok (mk : Nat → Line) (mkP : Nat → List Nat → UrgPayload)
    (r : Nat) (inp inp1 inp2 : Input) (v : Nat × List Nat)
    (hc : check_send_cmd_response (mk (wrapDec32 r)) [57, 57] inp = .ok inp1)
    (hr : get_raw_data inp1 = .ok (v, inp2)) :
    mdLoop mk mkP r inp =
      (if wrapDec32 r = 0 then .ok ([mkP v.1 v.2], inp2)
       else
        match mdLoop mk mkP (wrapDec32 r) inp2 with
        | .ok (ps, inp3) => .ok (mkP v.1 v.2 :: ps, inp3)
        | .err e => .err e
        | .panic => .panic) := by
  rw [mdLoop.eq_def]
  dsimp only
  generalize hX :
    (if wrapDec32 r = 0 then (.ok ([mkP v.1 v.2], inp2) : Outcome (List UrgPayload × Input))
     else
      match mdLoop mk mkP (wrapDec32 r) inp2 with
      | .ok (ps, inp3) => .ok (mkP v.1 v.2 :: ps, inp3)
      | .err e => .err e
      | .panic => .panic) = X
  split
  · rename_i heq
    rw [hc] at heq
    simp at heq
  · rename_i heq
    rw [hc] at heq
    simp at heq
  · rename_i inp1x heq
    rw [hc] at heq
    simp only [Outcome.ok.injEq] at heq
    subst heq
    split
    · rename_i heq2
      rw [hr] at heq2
      simp at heq2
    · rename_i heq2
      rw [hr] at heq2
      simp at heq2
    · rename_i vx inp2x heq2
      rw [hr] at heq2
      simp only [Outcome.ok.injEq, Prod.mk.injEq] at heq2
      obtain ⟨hv, hi⟩ := heq2
      subst hv
      subst hi
      subst hX
      rfl

/-- Running the bounded continuation loop with `m ≥ 1` remaining scans over
the canonical countdown stream succeeds, consumes exactly the stream,
and yields exactly `m` records. -/
theorem mdLoop_contStream (mk : Nat → Line) (mkP : Nat → List Nat → UrgPayload)
    (dp : List Nat) :
    ∀ m, 1 ≤ m → m < 2 ^ 32 → ∀ rest : Input,
      mdLoop mk mkP m (contStream mk dp m ++ rest) =
        .ok (List.replicate m (mkP 1 dp), rest) := by
  intro m
  induction m with
  | zero => intro h; exact absurd h (by omega)
  | succ n ih =>
    intro h1 h2 rest
    have hw : wrapDec32 (n + 1) = n := rfl
    have hc := check_ok_canonical (mk n) [57, 57] 80
      (([48, 48, 48, 49] ++ [80, 10]) :: (dp ++ [80, 10]) :: [10] ::
        (contStream mk dp n ++ rest))
    have hraw := get_raw_data_canonical [48, 48, 48, 49] rfl 80 dp 80
      (contStream mk dp n ++ rest)
    have hdec : decode [48, 48, 48, 49] = 1 := rfl
    rw [hdec] at hraw
    simp only [List.cons_append, List.nil_append] at hc hraw
    simp only [contStream, contGroup, List.cons_append, List.nil_append,
      List.append_assoc]
    rw [mdLoop_step_ok mk mkP (n + 1) _ _ _ (1, dp) hc hraw, hw]
    by_cases hn : n = 0
    · subst hn
      simp only [contStream, List.nil_append] at *
      simp
    · rw [if_neg hn, ih (by omega) (by omega) rest]
      simp [List.replicate_succ]

/-- One-step unfolding of `infLoop` along a successful continuation exchange
and block read. -/
theorem infLoop_step_ok (cmd : Line) (mkP : Nat → List Nat → UrgPayload)
    (cb : UrgPayload → Bool) (inp inp1 inp2 : Input) (v : Nat × List Nat)
    (hc : check_send_cmd_response cmd [57, 57] inp = .ok inp1)
    (hr : get_raw_data inp1 = .ok (v, inp2)) :
    infLoop cmd mkP cb inp =
      (if cb (mkP v.1 v.2) then .ok ([mkP v.1 v.2], inp2)
       else
        match infLoop cmd mkP cb inp2 with
        | .ok (ps, inp3) => .ok (mkP v.1 v.2 :: ps, inp3)
        | .err e => .err e
        | .panic => .panic) := by
  rw [infLoop.eq_def]
  generalize hX :
    (if cb (mkP v.1 v.2) then (.ok ([mkP v.1 v.2], inp2) : Outcome (List UrgPayload × Input))
     else
      match infLoop cmd mkP cb inp2 with
      | .ok (ps, inp3) => .ok (mkP v.1 v.2 :: ps, inp3)
      | .err e => .err e
      | .panic => .panic) = X
  split
  · rename_i heq
    rw [hc] at heq
    simp at heq
  · rename_i heq
    rw [hc] at heq
    simp at heq
  · rename_i inp1x heq
    rw [hc] at heq
    simp only [Outcome.ok.injEq] at heq
    subst heq
    split
    · rename_i heq2
      rw [hr] at heq2
      simp at heq2
    · rename_i heq2
      rw [hr] at heq2
      simp at heq2
    · rename_i vx inp2x heq2
      rw [hr] at heq2
      simp only [Outcome.ok.injEq, Prod.mk.injEq] at heq2
      obtain ⟨hv, hi⟩ := heq2
      subst hv
      subst hi
      subst hX
      rfl

/-- A continuation group of the canonical unbounded-scan device stream that
does NOT trigger the stop predicate: the echo of the unchanged request
command, status `"99"`, a timestamp line, and an immediate terminator (an
empty data block, so the resulting record has no distances). -/
def infGroupPass (cmd : Line) : Input :=
  [cmd ++ [10], [57, 57] ++ [80, 10], [48, 48, 48, 49] ++ [80, 10], [10]]

/-- The final continuation group: same exchange, but with one data line
carrying `dp`, producing the record on which the stop predicate fires. -/
def infGroupStop (cmd : Line) (dp : List Nat) : Input :=
  [cmd ++ [10], [57, 57] ++ [80, 10], [48, 48, 48, 49] ++ [80, 10],
    dp ++ [80, 10], [10]]

/-- `k` copies of a group of lines, concatenated. -/
def repeatGroups (g : Input) : Nat → Input
  | 0 => []
  | k + 1 => g ++ repeatGroups g k

/-- Running the unbounded loop over `m` non-triggering groups followed by one
triggering group: every record is delivered to the callback, the record that
triggers the stop is still delivered, and the loop stops reading exactly
there — the remaining input is returned untouched. -/
theorem infLoop_device (cmd : Line) (mkP : Nat → List Nat → UrgPayload)
    (cb : UrgPayload → Bool) (dp : List Nat)
    (hpass : cb (mkP 1 []) = false) (hstop : cb (mkP 1 dp) = true) :
    ∀ (m : Nat) (rest : Input),
      infLoop cmd mkP cb
        (repeatGroups (infGroupPass cmd) m ++ (infGroupStop cmd dp ++ rest)) =
        .ok (List.replicate m (mkP 1 []) ++ [mkP 1 dp], rest) := by
  intro m
  induction m with
  | zero =>
    intro rest
    have hc := check_ok_canonical cmd [57, 57] 80
      (([48, 48, 48, 49] ++ [80, 10]) :: (dp ++ [80, 10]) :: [10] :: rest)
    have hraw := get_raw_data_canonical [48, 48, 48, 49] rfl 80 dp 80 rest
    have hdec : decode [48, 48, 48, 49] = 1 := rfl
    rw [hdec] at hraw
    simp only [List.cons_append, List.nil_append] at hc hraw
    simp only [repeatGroups, infGroupStop, List.cons_append, List.nil_append,
      List.append_assoc]
    rw [infLoop_step_ok cmd mkP cb _ _ _ (1, dp) hc hraw]
    simp [hstop]
  | succ k ih =>
    intro rest
    have hc := check_ok_canonical cmd [57, 57] 80
      (([48, 48, 48, 49] ++ [80, 10]) :: [10] ::
        (repeatGroups (infGroupPass cmd) k ++ (infGroupStop cmd dp ++ rest)))
    have hraw := get_raw_data_canonical_nodata [48, 48, 48, 49] rfl 80
      (repeatGroups (infGroupPass cmd) k ++ (infGroupStop cmd dp ++ rest))
    have hdec : decode [48, 48, 48, 49] = 1 := rfl
    rw [hdec] at hraw
    simp only [infGroupPass, List.cons_append, List.nil_append] at hc hraw
    simp only [repeatGroups, infGroupPass, List.cons_append, List.nil_append,
      List.append_assoc]
    rw [infLoop_step_ok cmd mkP cb _ _ _ (1, []) hc hraw]
    have ih2 := ih rest
    simp only [infGroupPass, List.cons_append, List.nil_append] at ih2
    rw [ih2]
    simp [hpass, List.replicate_succ]

/-- The example stop predicate used for C7: fires exactly on a record that
carries at least one distance sample. -/
def cbStop (p : UrgPayload) : Bool :=
  !p.distance.isEmpty

/-- C7: for the unbounded operations, given a stop predicate that returns
`true` exactly on the `k`-th record (here: the first `k - 1` device groups
carry empty data blocks, on which `cbStop` is `false`, and the `k`-th group
carries data, on which `cbStop` is `true`), exactly `k` records are
delivered to the predicate — the triggering record included — and no
further continuation exchange is read: the input beyond the `k`-th group is
returned untouched.  Each continuation verifies the unchanged original
request command (every group of `infGroupPass`/`infGroupStop` echoes the
same `mdCmd .. 0` / `meCmd .. 0`) with expected status `"99"`, and nothing
is written after the single initial request: the write trace gains exactly
one line. -/
theorem claim_C7_infinite_stop (s e c sk k : Nat) (rest : Input) (w0 : List Line)
    (hk : 1 ≤ k) :
    (get_distance_infinite s e c sk cbStop
        ⟨[mdCmd s e c sk 0 ++ [10], [48, 48] ++ [80, 10], [10]] ++
          (repeatGroups (infGroupPass (mdCmd s e c sk 0)) (k - 1) ++
            (infGroupStop (mdCmd s e c sk 0) [49, 68, 104] ++ rest)), w0⟩ =
      .ok (List.replicate (k - 1) (mkDistancePayload 1 []) ++
          [mkDistancePayload 1 [49, 68, 104]],
        ⟨rest, w0 ++ [mdCmd s e c sk 0 ++ [10]]⟩)) ∧
    (List.replicate (k - 1) (mkDistancePayload 1 []) ++
      [mkDistancePayload 1 [49, 68, 104]]).length = k ∧
    cbStop (mkDistancePayload 1 []) = false ∧
    cbStop (mkDistancePayload 1 [49, 68, 104]) = true ∧
    (get_distance_intensity_infinite s e c sk cbStop
        ⟨[meCmd s e c sk 0 ++ [10], [48, 48] ++ [80, 10], [10]] ++
          (repeatGroups (infGroupPass (meCmd s e c sk 0)) (k - 1) ++
            (infGroupStop (meCmd s e c sk 0) [49, 68, 104, 49, 68, 104] ++ rest)), w0⟩ =
      .ok (List.replicate (k - 1) (mkIntensityPayload 1 []) ++
          [mkIntensityPayload 1 [49, 68, 104, 49, 68, 104]],
        ⟨rest, w0 ++ [meCmd s e c sk 0 ++ [10]]⟩)) ∧
    cbStop (mkIntensityPayload 1 []) = false ∧
    cbStop (mkIntensityPayload 1 [49, 68, 104, 49, 68, 104]) = true := by
  refine ⟨?_, by simp; omega, rfl, rfl, ?_, rfl, rfl⟩
  · have hsend := send_cmd_canonical (mdCmd s e c sk 0) [48, 48] 80
      ([10] :: (repeatGroups (infGroupPass (mdCmd s e c sk 0)) (k - 1) ++
        (infGroupStop (mdCmd s e c sk 0) [49, 68, 104] ++ rest))) w0
    have hloop := infLoop_device (mdCmd s e c sk 0) mkDistancePayload cbStop
      [49, 68, 104] rfl rfl (k - 1) rest
    simp only [List.cons_append, List.nil_append] at hsend ⊢
    simp only [get_distance_infinite, hsend, recv_data, hloop]
  · have hsend := send_cmd_canonical (meCmd s e c sk 0) [48, 48] 80
      ([10] :: (repeatGroups (infGroupPass (meCmd s e c sk 0)) (k - 1) ++
        (infGroupStop (meCmd s e c sk 0) [49, 68, 104, 49, 68, 104] ++ rest))) w0
    have hloop := infLoop_device (meCmd s e c sk 0) mkIntensityPayload cbStop
      [49, 68, 104, 49, 68, 104] rfl rfl (k - 1) rest
    simp only [List.cons_append, List.nil_append] at hsend ⊢
    simp only [get_distance_intensity_infinite, hsend, recv_data, hloop]

/-- C7 witness: the theorem applied at `k = 2` with concrete scan
parameters, an empty trailing stream and an empty write trace. -/
theorem claim_C7_witness :
    1 ≤ 2 ∧
      (get_distance_infinite 0 10 1 0 cbStop
          ⟨[mdCmd 0 10 1 0 0 ++ [10], [48, 48] ++ [80, 10], [10]] ++
            (repeatGroups (infGroupPass (mdCmd 0 10 1 0 0)) (2 - 1) ++
              (infGroupStop (mdCmd 0 10 1 0 0) [49, 68, 104] ++ [])), []⟩ =
        .ok (List.replicate (2 - 1) (mkDistancePayload 1 []) ++
            [mkDistancePayload 1 [49, 68, 104]],
          ⟨[], [] ++ [mdCmd 0 10 1 0 0 ++ [10]]⟩)) ∧
      (List.replicate (2 - 1) (mkDistancePayload 1 []) ++
        [mkDistancePayload 1 [49, 68, 104]]).length = 2 ∧
      cbStop (mkDistancePayload 1 []) = false ∧
      cbStop (mkDistancePayload 1 [49, 68, 104]) = true ∧
      (get_distance_intensity_infinite 0 10 1 0 cbStop
          ⟨[meCmd 0 10 1 0 0 ++ [10], [48, 48] ++ [80, 10], [10]] ++
            (repeatGroups (infGroupPass (meCmd 0 10 1 0 0)) (2 - 1) ++
              (infGroupStop (meCmd 0 10 1 0 0) [49, 68, 104, 49, 68, 104] ++ [])), []⟩ =
        .ok (List.replicate (2 - 1) (mkIntensityPayload 1 []) ++
            [mkIntensityPayload 1 [49, 68, 104, 49, 68, 104]],
          ⟨[], [] ++ [meCmd 0 10 1 0 0 ++ [10]]⟩)) ∧
      cbStop (mkIntensityPayload 1 []) = false ∧
      cbStop (mkIntensityPayload 1 [49, 68, 104, 49, 68, 104]) = true :=
  ⟨by decide, claim_C7_infinite_stop 0 10 1 0 2 [] [] (by decide)⟩

/-- A canonical exchange whose status line differs from the expected status
fails with `StatusMismatch` (the echo still matches). -/
theorem check_status_mismatch (cmd st st2 : Line) (c : Nat) (rest : Input)
    (hne : st2 ≠ st) :
    check_send_cmd_response cmd st ((cmd ++ [10]) :: (st2 ++ [c, 10]) :: rest) =
      .err (.statusMismatch cmd st st2) := by
  have h1 : (cmd ++ [10]).take ((cmd ++ [10]).length - 1) = cmd := by
    have := take_length_append cmd [10]
    simpa using this
  have h2 : (st2 ++ [c, 10]).take ((st2 ++ [c, 10]).length - 2) = st2 := by
    have := take_length_append st2 [c, 10]
    simpa using this
  simp [check_send_cmd_response, recv_data, h1, h2, hne]

/-- `send_cmd` propagates a `check_send_cmd_response` error. -/
theorem send_cmd_err (cmd st : Line) (w : World) (e2 : UrgError)
    (h : check_send_cmd_response cmd st w.input = .err e2) :
    send_cmd cmd st w = .err e2 := by
  simp [send_cmd, h]

/-- C6: a successful `get_distance_multi` / `get_distance_intensity_multi`
with `num_of_scan = n` returns exactly `n` records.  The continuation
exchanges verify the derived command strings `mdCmd s e c sk r` /
`meCmd s e c sk r` whose trailing (`pad 2`, i.e. two-digit zero-padded)
count field counts down `n - 1, n - 2, ..., 0` in read order — this is
literally the shape of `contStream`, whose group for remaining count
`r + 1` echoes the command with count field `r` — each with expected
status `"99"`, while the initial request acknowledgment is the only
exchange verified against status `"00"`: the final conjunct shows that a
device answering the FIRST exchange with `"99"` instead of `"00"` makes
the whole operation fail with a `StatusMismatch` expecting `"00"`. -/
theorem claim_C6_bounded_countdown (s e c sk n : Nat) (dp : List Nat) (rest : Input)
    (w0 : List Line) (h1 : 1 ≤ n) (h2 : n < 2 ^ 32) :
    (get_distance_multi s e c sk ⟨n, h1, h2⟩
        ⟨[mdCmd s e c sk n ++ [10], [48, 48] ++ [80, 10], [10]] ++
          (contStream (mdCmd s e c sk) dp n ++ rest), w0⟩ =
      .ok (List.replicate n (mkDistancePayload 1 dp),
        ⟨rest, w0 ++ [mdCmd s e c sk n ++ [10]]⟩)) ∧
    (List.replicate n (mkDistancePayload 1 dp)).length = n ∧
    (get_distance_intensity_multi s e c sk ⟨n, h1, h2⟩
        ⟨[meCmd s e c sk n ++ [10], [48, 48] ++ [80, 10], [10]] ++
          (contStream (meCmd s e c sk) dp n ++ rest), w0⟩ =
      .ok (List.replicate n (mkIntensityPayload 1 dp),
        ⟨rest, w0 ++ [meCmd s e c sk n ++ [10]]⟩)) ∧
    (get_distance_multi s e c sk ⟨n, h1, h2⟩
        ⟨(mdCmd s e c sk n ++ [10]) :: ([57, 57] ++ [80, 10]) :: rest, w0⟩ =
      .err (.statusMismatch (mdCmd s e c sk n) [48, 48] [57, 57])) := by
  refine ⟨?_, by simp, ?_, ?_⟩
  · have hsend := send_cmd_canonical (mdCmd s e c sk n) [48, 48] 80
      ([10] :: (contStream (mdCmd s e c sk) dp n ++ rest)) w0
    have hloop := mdLoop_contStream (mdCmd s e c sk) mkDistancePayload dp n h1 h2 rest
    simp only [List.cons_append, List.nil_append] at hsend ⊢
    simp only [get_distance_multi, hsend, recv_data, hloop]
  · have hsend := send_cmd_canonical (meCmd s e c sk n) [48, 48] 80
      ([10] :: (contStream (meCmd s e c sk) dp n ++ rest)) w0
    have hloop := mdLoop_contStream (meCmd s e c sk) mkIntensityPayload dp n h1 h2 rest
    simp only [List.cons_append, List.nil_append] at hsend ⊢
    simp only [get_distance_intensity_multi, hsend, recv_data, hloop]
  · have hchk := check_status_mismatch (mdCmd s e c sk n) [48, 48] [57, 57] 80 rest
      (by decide)
    have hsend := send_cmd_err (mdCmd s e c sk n) [48, 48]
      ⟨(mdCmd s e c sk n ++ [10]) :: ([57, 57] ++ [80, 10]) :: rest, w0⟩ _ hchk
    simp only [get_distance_multi, hsend]

/-- C6 witness: the theorem applied at the spec's own scenario —
`start = 0, end = 1080, cluster = 0, skip = 0, count = 3` — with a 3-byte
data payload per scan, an empty trailing stream and an empty write trace. -/
theorem claim_C6_witness :
    (1 ≤ 3 ∧ 3 < 2 ^ 32) ∧
      ((get_distance_multi 0 1080 0 0 ⟨3, by norm_num, by norm_num⟩
          ⟨[mdCmd 0 1080 0 0 3 ++ [10], [48, 48] ++ [80, 10], [10]] ++
            (contStream (mdCmd 0 1080 0 0) [49, 68, 104] 3 ++ []), []⟩ =
        .ok (List.replicate 3 (mkDistancePayload 1 [49, 68, 104]),
          ⟨[], [] ++ [mdCmd 0 1080 0 0 3 ++ [10]]⟩)) ∧
      (List.replicate 3 (mkDistancePayload 1 [49, 68, 104])).length = 3 ∧
      (get_distance_intensity_multi 0 1080 0 0 ⟨3, by norm_num, by norm_num⟩
          ⟨[meCmd 0 1080 0 0 3 ++ [10], [48, 48] ++ [80, 10], [10]] ++
            (contStream (meCmd 0 1080 0 0) [49, 68, 104] 3 ++ []), []⟩ =
        .ok (List.replicate 3 (mkIntensityPayload 1 [49, 68, 104]),
          ⟨[], [] ++ [meCmd 0 1080 0 0 3 ++ [10]]⟩)) ∧
      (get_distance_multi 0 1080 0 0 ⟨3, by norm_num, by norm_num⟩
          ⟨(mdCmd 0 1080 0 0 3 ++ [10]) :: ([57, 57] ++ [80, 10]) :: [], []⟩ =
        .err (.statusMismatch (mdCmd 0 1080 0 0 3) [48, 48] [57, 57]))) :=
  ⟨⟨by norm_num, by norm_num⟩,
    claim_C6_bounded_countdown 0 1080 0 0 3 [49, 68, 104] [] [] (by norm_num) (by norm_num)⟩

/-- Plain-match unfolding of `mdLoop`, valid on every path (success, error
or panic of either read). -/
theorem mdLoop_unfold (mk : Nat → Line) (mkP : Nat → List Nat → UrgPayload)
    (r : Nat) (inp : Input) :
    mdLoop mk mkP r inp =
      (match check_send_cmd_response (mk (wrapDec32 r)) [57, 57] inp with
       | .err e => .err e
       | .panic => .panic
       | .ok inp1 =>
         match get_raw_data inp1 with
         | .err e => .err e
         | .panic => .panic
         | .ok (v, inp2) =>
           if wrapDec32 r = 0 then .ok ([mkP v.1 v.2], inp2)
           else
            match mdLoop mk mkP (wrapDec32 r) inp2 with
            | .ok (ps, inp3) => .ok (mkP v.1 v.2 :: ps, inp3)
            | .err e => .err e
            | .panic => .panic) := by
  rw [mdLoop.eq_def]
  dsimp only
  split
  · rename_i e3 heq
    rw [heq]
  · rename_i heq
    rw [heq]
  · rename_i inp1 heq
    rw [heq]
    dsimp only
    split
    · rename_i e3 heq2
      rw [heq2]
    · rename_i heq2
      rw [heq2]
    · rename_i v inp2 heq2
      rw [heq2]

/-- Plain-match unfolding of `mdLoopSpec`. -/
theorem mdLoopSpec_unfold (mk : Nat → Line) (mkP : Nat → List Nat → UrgPayload)
    (r : Nat) (inp : Input) :
    mdLoopSpec mk mkP r inp =
      (match check_send_cmd_response (mk (r - 1)) [57, 57] inp with
       | .err e => .err e
       | .panic => .panic
       | .ok inp1 =>
         match get_raw_data inp1 with
         | .err e => .err e
         | .panic => .panic
         | .ok (v, inp2) =>
           if r - 1 = 0 then .ok ([mkP v.1 v.2], inp2)
           else
            match mdLoopSpec mk mkP (r - 1) inp2 with
            | .ok (ps, inp3) => .ok (mkP v.1 v.2 :: ps, inp3)
            | .err e => .err e
            | .panic => .panic) := by
  rw [mdLoopSpec.eq_def]
  dsimp only
  split
  · rename_i e3 heq
    rw [heq]
  · rename_i heq
    rw [heq]
  · rename_i inp1 heq
    rw [heq]
    dsimp only
    split
    · rename_i e3 heq2
      rw [heq2]
    · rename_i heq2
      rw [heq2]
    · rename_i v inp2 heq2
      rw [heq2]

/-- Under the interface precondition `1 ≤ r < 2^32`, the source loop with
its wrapping `u32` decrement computes exactly what the exact-decrement loop
computes, on every input stream and along every path. -/
theorem mdLoop_eq_mdLoopSpec (mk : Nat → Line) (mkP : Nat → List Nat → UrgPayload) :
    ∀ (N : Nat) (inp : Input) (r : Nat), inp.length ≤ N → 1 ≤ r → r < 2 ^ 32 →
      mdLoop mk mkP r inp = mdLoopSpec mk mkP r inp := by
  intro N
  induction N with
  | zero =>
    intro inp r hlen hr1 hr2
    have hinp : inp = [] := by
      cases inp with
      | nil => rfl
      | cons a t => simp at hlen
    subst hinp
    rw [mdLoop_unfold, mdLoopSpec_unfold]
    rfl
  | succ N ihN =>
    intro inp r hlen hr1 hr2
    have hw : wrapDec32 r = r - 1 := by
      cases r with
      | zero => exact absurd hr1 (by omega)
      | succ n => rfl
    rw [mdLoop_unfold, mdLoopSpec_unfold, hw]
    rcases hcheck : check_send_cmd_response (mk (r - 1)) [57, 57] inp with inp1 | e1 | _
    · simp only [hcheck]
      rcases hraw : get_raw_data inp1 with ⟨v, inp2⟩ | e2 | _
      · simp only [hraw]
        by_cases h0 : r - 1 = 0
        · simp [h0]
        · have hlen2 : inp2.length ≤ N := by
            have l1 := check_ok_length hcheck
            have l2 := get_raw_data_ok_length hraw
            omega
          rw [ihN inp2 (r - 1) hlen2 (by omega) (by omega)]
      · simp [hraw]
      · simp [hraw]
    · simp [hcheck]
    · simp [hcheck]

/-- C9: the multi-scan interface takes its scan count as a `NonZeroU32`, so
the count is at least 1 (and within the `u32` range) at the public
interface; and under exactly this precondition the internal countdown —
`remaining_scan -= 1` before building each continuation command, stopping
at 0 — never underflows: the wrapping decrement coincides with the exact
decrement on the whole interface range, and consequently the source loop
(`mdLoop`, wrapping semantics) computes exactly what the never-wrapping
loop (`mdLoopSpec`) computes, on every input and along every path. -/
theorem claim_C9_nonzero_no_underflow :
    (∀ n : NonZeroU32, 1 ≤ n.val ∧ n.val < 2 ^ 32) ∧
      (∀ r : Nat, 1 ≤ r → r < 2 ^ 32 → wrapDec32 r = r - 1) ∧
      (∀ (mk : Nat → Line) (mkP : Nat → List Nat → UrgPayload) (r : Nat) (inp : Input),
        1 ≤ r → r < 2 ^ 32 → mdLoop mk mkP r inp = mdLoopSpec mk mkP r inp) := by
  refine ⟨fun n => n.2, ?_, ?_⟩
  · intro r hr1 hr2
    cases r with
    | zero => exact absurd hr1 (by omega)
    | succ n => rfl
  · intro mk mkP r inp hr1 hr2
    exact mdLoop_eq_mdLoopSpec mk mkP inp.length inp r le_rfl hr1 hr2

/-- C9 witness: the no-underflow facts applied at the count 1 and at a
concrete loop instance on the empty stream. -/
theorem claim_C9_witness :
    (1 ≤ (1 : Nat) ∧ (1 : Nat) < 2 ^ 32) ∧
      wrapDec32 1 = 1 - 1 ∧
      mdLoop (fun _ => []) (fun t _ => ⟨t, [], []⟩) 1 [] =
        mdLoopSpec (fun _ => []) (fun t _ => ⟨t, [], []⟩) 1 [] :=
  ⟨⟨le_refl 1, by norm_num⟩,
    claim_C9_nonzero_no_underflow.2.1 1 (le_refl 1) (by norm_num),
    claim_C9_nonzero_no_underflow.2.2 (fun _ => []) (fun t _ => ⟨t, [], []⟩) 1 []
      (le_refl 1) (by norm_num)⟩

/-- C5: `decode` satisfies the big-endian accumulation recurrence
`res' = (res << 6) + ((byte - 0x30) & 0x3F)` (rendered with explicit `u32`
shift wraparound and the wrapped `u8` subtraction), and on the ASCII bytes
of `"1Dh"` (`0x31, 0x44, 0x68`) it returns 5432, matching the repository's
own `decode_test`. -/
theorem decode_accumulation_and_1Dh :
    (∀ (l : List Nat) (b : Nat),
        decode (l ++ [b]) = decode l * 64 % 2 ^ 32 + (b + 208) % 256 % 64) ∧
      decode [0x31, 0x44, 0x68] = 5432 := by
  constructor
  · intro l b
    simp [decode, List.foldl_append]
  · rfl

end UrgRust
